import Mathlib

/-!
Verification of the replication-google-drive plugin sources.

The definitions below are shallow embeddings of the TypeScript functions in
src/plugins/replication-google-drive. Network calls are modelled by passing
the data a call would return (listing results, response status sequences,
downloaded contents) as explicit arguments; in-place mutation is modelled by
returning the updated state. Timestamps (modifiedTime, createdTime) are
modelled as natural numbers: the code only compares them, never computes with
them, and the ISO8601 strings it uses compare consistently with time order.
-/

namespace GoogleDriveReplication

/-- Metadata of one file as returned by the drive listing endpoint,
restricted to the fields the replication logic reads. -/
structure DriveFileMetadata where
  id : String
  name : String
  modifiedTime : Nat
  deriving DecidableEq, Repr

/-- Checkpoint type of the downstream replication, from google-drive-types:
a modifiedTime plus the names of already delivered files that share it. -/
structure GoogleDriveCheckpointType where
  modifiedTime : Nat
  docIdsWithSameModifiedTime : List String
  deriving DecidableEq, Repr

/-- Result record of fetchChangesFiles. -/
structure FetchChangesFilesResult where
  checkpoint : Option GoogleDriveCheckpointType
  files : List DriveFileMetadata
  deriving DecidableEq, Repr

/-- Embedding of fetchChangesFiles (downstream.ts lines 37-118), starting
after the HTTP listing: the parameter listed is the file list the drive
endpoint returned for the query (which asks for modifiedTime greater or
equal to the checkpoint and orders by modifiedTime asc, name asc). The
filter, the truncation to batchSize and the checkpoint construction follow
lines 87-112 of the source. -/
def fetchChangesFiles
    (checkpoint : Option GoogleDriveCheckpointType)
    (listed : List DriveFileMetadata)
    (batchSize : Nat) : FetchChangesFilesResult :=
  let files :=
    match checkpoint with
    | some c =>
        listed.filter (fun (file : DriveFileMetadata) =>
          !(file.modifiedTime == c.modifiedTime
            && c.docIdsWithSameModifiedTime.contains file.name))
    | none => listed
  let files := files.take batchSize
  let first := files.head?
  match files.getLast? with
  | none => { checkpoint := checkpoint, files := files }
  | some lastFile =>
      let lastModified := lastFile.modifiedTime
      let docIdsWithSameModifiedTime :=
        (files.filter (fun (file : DriveFileMetadata) =>
          file.modifiedTime == lastModified)).map
          (fun file => file.name)
      let docIdsWithSameModifiedTime :=
        match checkpoint, first with
        | some c, some f =>
            if f.modifiedTime == c.modifiedTime then
              docIdsWithSameModifiedTime ++ c.docIdsWithSameModifiedTime
            else
              docIdsWithSameModifiedTime
        | _, _ => docIdsWithSameModifiedTime
      { checkpoint :=
          some { modifiedTime := lastModified
                 docIdsWithSameModifiedTime := docIdsWithSameModifiedTime }
        files := files }

/-- Statement of the claim C3 in the words of the specification, written
independently of the source embedding: drop exactly the files whose
modifiedTime equals the checkpoint modifiedTime and whose name is in the
checkpoint name list, truncate to batchSize, and build the new checkpoint
from the last kept file, concatenating the old name list when the first
kept file shares the old checkpoint modifiedTime. -/
def fetchChangesFilesSpec
    (c : GoogleDriveCheckpointType)
    (listed : List DriveFileMetadata)
    (batchSize : Nat) : FetchChangesFilesResult :=
  let kept :=
    (listed.filter (fun (file : DriveFileMetadata) =>
      decide (¬ (file.modifiedTime = c.modifiedTime
        ∧ file.name ∈ c.docIdsWithSameModifiedTime)))).take batchSize
  match kept.getLast? with
  | none => { checkpoint := some c, files := kept }
  | some lastFile =>
      let names :=
        (kept.filter (fun (file : DriveFileMetadata) =>
          decide (file.modifiedTime = lastFile.modifiedTime))).map
          (fun file => file.name)
      let names :=
        match kept.head? with
        | some f =>
            if f.modifiedTime = c.modifiedTime then
              names ++ c.docIdsWithSameModifiedTime
            else names
        | none => names
      { checkpoint :=
          some { modifiedTime := lastFile.modifiedTime
                 docIdsWithSameModifiedTime := names }
        files := kept }

/-- Delay sequence of the adaptive signaling poll loop
(signaling.ts lines 43-59). -/
def BACKOFF_STEPS : List Nat :=
  [50, 50, 100, 100, 200, 400, 600, 1000, 2000, 4000,
   8000, 15000, 30000, 60000, 120000]

/-- Index of the last backoff delay (signaling.ts line 60). -/
def MAX_BACKOFF_STEP_ID : Nat := BACKOFF_STEPS.length - 1

/-- State of the SignalingState fields that the poll loop reads and writes:
the backoff step counter and, for observability, how many resync events
have been emitted. -/
structure PollState where
  backoffStepId : Nat
  resyncEmits : Nat
  deriving DecidableEq, Repr

/-- Effect of one call of the private method processing new messages
(signaling.ts lines 167-235) on the poll state: a non-empty batch emits on
the resync stream (line 173-175); the method never writes backoffStepId.
The batch is given by its size. -/
def processNewMessagesStep (s : PollState) (batchSize : Nat) : PollState :=
  if batchSize > 0 then { s with resyncEmits := s.resyncEmits + 1 } else s

/-- One iteration of the processing loop started in the SignalingState
constructor (signaling.ts lines 111-123): read the delay for the current
step id, process the new messages, wait, then increment the step id and cap
it at MAX_BACKOFF_STEP_ID. Returns the delay used by this iteration and the
state before the next iteration. -/
def pollLoopIteration (s : PollState) (batchSize : Nat) : Nat × PollState :=
  let time := BACKOFF_STEPS.getD s.backoffStepId 0
  let s := processNewMessagesStep s batchSize
  let nextId := s.backoffStepId + 1
  let nextId := if nextId > MAX_BACKOFF_STEP_ID then MAX_BACKOFF_STEP_ID else nextId
  (time, { s with backoffStepId := nextId })

/-- Effect of resetReadLoop (signaling.ts lines 152-158), which is invoked
by the online listener, the visibilitychange listener and the NEW_PEER data
message: process the new messages, then set the step counter to 0 and skip
the pending wait. -/
def resetReadLoopStep (s : PollState) (batchSize : Nat) : PollState :=
  { processNewMessagesStep s batchSize with backoffStepId := 0 }

/-- Metadata of a signaling file: id plus server-assigned creation time. -/
structure SignalingFileMeta where
  id : String
  createdTime : Nat
  deriving DecidableEq, Repr

/-- Default maximum age of signaling files (signaling.ts line 339). -/
def DEFAULT_MAX_AGE_MS : Nat := 24 * 60 * 60 * 1000

/-- Embedding of cleanupOldSignalingMessages (signaling.ts lines 341-399).
The first statement of the function body is a return of the literal 2
(line 346), so the listing and deletion code on lines 348-398 is
unreachable and the signaling folder is left untouched. The folder contents
are passed in and returned so that the absence of deletions is visible. -/
def cleanupOldSignalingMessages
    (folder : List SignalingFileMeta)
    (nowMs : Nat)
    (maxAgeMs : Nat := DEFAULT_MAX_AGE_MS) : Nat × List SignalingFileMeta :=
  (2, folder)

/-- Embedding of the unreachable body of cleanupOldSignalingMessages
(signaling.ts lines 348-398): list the signaling files with createdTime
before now minus maxAgeMs, delete each of them, and return how many there
were. This is what the specification describes the function as doing. -/
def cleanupOldSignalingMessagesBody
    (folder : List SignalingFileMeta)
    (nowMs : Nat)
    (maxAgeMs : Nat := DEFAULT_MAX_AGE_MS) : Nat × List SignalingFileMeta :=
  let oldFiles := folder.filter (fun f => decide (f.createdTime < nowMs - maxAgeMs))
  (oldFiles.length,
    folder.filter (fun f => !(decide (f.createdTime < nowMs - maxAgeMs))))

/-- Event listeners registered on the two global browser event targets,
window and document, as pairs of event name lists. Only the listeners added
by the SignalingState (its resetReaderFn) are tracked. -/
structure ListenerRegistry where
  window : List String
  document : List String
  deriving DecidableEq, Repr

/-- Listener registrations performed by the SignalingState constructor in a
browser (signaling.ts lines 104-108): addEventListener of online on window
and of visibilitychange on document. -/
def signalingConstructorListeners (r : ListenerRegistry) : ListenerRegistry :=
  { r with
    window := r.window ++ ["online"]
    document := r.document ++ ["visibilitychange"] }

/-- Listener removals performed by close in a browser (signaling.ts lines
239-242): removeEventListener of online on window and removeEventListener
of visibilitychange on window. The document target is not touched. -/
def signalingCloseListeners (r : ListenerRegistry) : ListenerRegistry :=
  { r with
    window := (r.window.filter (fun e => decide (e ≠ "online"))).filter
      (fun e => decide (e ≠ "visibilitychange")) }

/-- Listing entry of a signaling message file: drive file id and file name
of the form sessionId, timestamp and messageId joined by underscores with a
json suffix. -/
structure SignalMessageFile where
  id : String
  name : String
  deriving DecidableEq, Repr

/-- Embedding of messageIdByFilename (signaling.ts lines 333-337): take the
part of the name before the first dot and return the last underscore
separated component. -/
def messageIdByFilename (name : String) : String :=
  let fileName := (name.splitOn ".").headD ""
  ((fileName.splitOn "_").getLast?).getD ""

/-- Sender extraction used inside readMessages (signaling.ts line 309): the
part of the file name before the first underscore. -/
def senderIdByFilename (name : String) : String :=
  (name.splitOn "_").headD ""

/-- Model of awaiting all content downloads of the batch at once
(signaling.ts lines 303-315, Promise.all over readJsonFileContent): the
download oracle maps a file id to either an error or the parsed content;
the whole batch fails as soon as any single download fails, and on success
yields the sender and content pairs in batch order. -/
def downloadAllMessages (download : String → Except Nat String) :
    List SignalMessageFile → Except Nat (List (String × String))
  | [] => Except.ok []
  | f :: rest =>
      match download f.id, downloadAllMessages download rest with
      | Except.error e, _ => Except.error e
      | Except.ok _, Except.error e => Except.error e
      | Except.ok c, Except.ok cs => Except.ok ((senderIdByFilename f.name, c) :: cs)

/-- Unseen files of a readMessages call (signaling.ts lines 296-301): the
listing comes back newest first, is reversed, and files whose message id is
already in processedMessageIds are skipped. -/
def unseenMessageFiles
    (listedNewestFirst : List SignalMessageFile)
    (processedMessageIds : List String) : List SignalMessageFile :=
  (listedNewestFirst.reverse).filter (fun file =>
    !(processedMessageIds.contains (messageIdByFilename file.name)))

/-- Embedding of readMessages (signaling.ts lines 249-329). The folder
listing and the per-file downloads are passed in. The returned pair is the
call result (messages or the propagated download error) together with the
processedMessageIds set after the call: the ids of the batch are added only
after every download of the batch succeeded (lines 317-324). -/
def readMessages
    (listedNewestFirst : List SignalMessageFile)
    (processedMessageIds : List String)
    (download : String → Except Nat String) :
    Except Nat (List (String × String)) × List String :=
  let useFiles := unseenMessageFiles listedNewestFirst processedMessageIds
  match downloadAllMessages download useFiles with
  | Except.error e => (Except.error e, processedMessageIds)
  | Except.ok msgs =>
      (Except.ok msgs,
        processedMessageIds ++ useFiles.map (fun file => messageIdByFilename file.name))

/-- Statuses the per-file download retries on
(document-handling.ts, fetchOne, line 180). -/
def RETRY_STATUSES : List Nat := [429, 500, 502, 503, 504]

/-- A 2xx response (res.ok of the fetch API). -/
def resOk (status : Nat) : Bool := decide (200 ≤ status) && decide (status < 300)

/-- Embedding of fetchOne inside fetchDocumentContents (document-handling.ts
lines 171-190) run against a sequence of response statuses, one consumed per
attempt, with the jitter values Math.floor of Math.random times 200 supplied
as a function of the attempt number. Returns the final outcome: ok, or the
error status that was propagated, together with the list of backoff delays
that were slept, in order. An empty status sequence is modelled as a
propagated status 0. -/
def fetchOneRun (jitter : Nat → Nat) :
    List Nat → Nat → Except Nat Unit × List Nat
  | [], _ => (Except.error 0, [])
  | status :: rest, attempt =>
      if status ∈ RETRY_STATUSES ∧ attempt < 4 then
        let backoffMs := 250 * 2 ^ attempt + jitter attempt
        let r := fetchOneRun jitter rest (attempt + 1)
        (r.1, backoffMs :: r.2)
      else if !(resOk status) then (Except.error status, [])
      else (Except.ok (), [])

/-- Response handling of the folder listing inside fetchChangesFiles
(downstream.ts lines 76-84): a single fetch, and any non-ok status is
thrown immediately as a fetch error, with no retry. -/
def fetchChangesFilesResponse : List Nat → Except Nat Unit
  | [] => Except.error 0
  | status :: _ => if resOk status then Except.ok () else Except.error status

/-- Phase of one worker of fetchDocumentContents (document-handling.ts lines
192-203): about to claim the next index, downloading the file claimed at
index i, or finished because nextIndex reached the end. -/
inductive WorkerPhase where
  | idle : WorkerPhase
  | fetching : Nat → WorkerPhase
  | done : WorkerPhase
  deriving DecidableEq, Repr

/-- State of one fetchDocumentContents call (document-handling.ts lines
160-207): the shared nextIndex counter, the ordered result slots, and the
phase of each of the concurrency many workers. The ordered array is a map
from slot index to the written content, none while unwritten. -/
structure FetchContentsRun where
  nextIndex : Nat
  ordered : Nat → Option String
  workers : List WorkerPhase

/-- Initial state of fetchDocumentContents: nextIndex 0, no slot written,
concurrency many workers started by Promise.all (line 205). -/
def fetchContentsInit (concurrency : Nat) : FetchContentsRun :=
  { nextIndex := 0
    ordered := fun _ => none
    workers := List.replicate concurrency WorkerPhase.idle }

/-- One scheduling step of the cooperative execution: the event loop resumes
worker w. An idle worker executes the claim i equal to nextIndex postfix
increment and the bounds check of lines 194-195, either finishing or moving
to the download of index i; a worker whose download of index i completed
writes the content of the file id at index i into the ordered slot i (line
200) and loops. The content oracle maps a file id to its parsed content:
the download result is determined by the file id alone. -/
def fetchContentsStep (fileIds : List String) (content : String → String)
    (s : FetchContentsRun) (w : Nat) : FetchContentsRun :=
  match s.workers.get? w with
  | none => s
  | some WorkerPhase.done => s
  | some WorkerPhase.idle =>
      if s.nextIndex ≥ fileIds.length then
        { s with workers := s.workers.set w WorkerPhase.done }
      else
        { s with
          workers := s.workers.set w (WorkerPhase.fetching s.nextIndex)
          nextIndex := s.nextIndex + 1 }
  | some (WorkerPhase.fetching i) =>
      { s with
        ordered := fun j => if j = i then some (content (fileIds.getD i "")) else s.ordered j
        workers := s.workers.set w WorkerPhase.idle }

/-- Execution of fetchDocumentContents under a schedule: the schedule lists
which worker the event loop resumes at each step. -/
def fetchContentsRunAll (fileIds : List String) (content : String → String)
    (concurrency : Nat) (schedule : List Nat) : FetchContentsRun :=
  schedule.foldl (fetchContentsStep fileIds content) (fetchContentsInit concurrency)

/-- The Promise.all of workers has resolved: every worker is done. -/
def fetchContentsAllDone (s : FetchContentsRun) : Bool :=
  s.workers.all (fun w => decide (w = WorkerPhase.done))

/-- Documents as fetchChanges returns them (downstream.ts lines 27-35):
fetchDocumentContents is run on the ids of the files of fetchChangesFiles,
in listing order, and the ordered array is returned as the documents. The
slots of the ordered array are read out in index order. -/
def fetchChangesDocuments (files : List DriveFileMetadata)
    (content : String → String) (concurrency : Nat) (schedule : List Nat) :
    List (Option String) :=
  let run := fetchContentsRunAll (files.map (fun f => f.id)) content concurrency schedule
  (List.range (files.map (fun f => f.id)).length).map run.ordered

/-- One row of an upstream push batch. Document states are modelled
opaquely as strings; the row carries the primary key of its new document
state explicitly. -/
structure WriteRow where
  key : String
  newDocumentState : String
  assumedMasterState : Option String
  deriving DecidableEq, Repr

/-- Modelled from the spec: the upstream conflict detection of
handleUpstreamBatch lives in plugins/replication-google-drive/upstream.ts
(fetchConflicts), which is not among the provided sources; only its callers
(index.ts) and the repository test file reference it. Modelled from section
4.4 step 1 and the scenario 5 of section 8 of the specification, which the
repository test for the full push batch asserts as well: for each row the
current document file under docs is fetched by primary key; a row is a
conflict exactly when such a file exists and either the row carries no
assumedMasterState or the stored state differs from it. The docs folder is
modelled as an association list from primary key to stored state. -/
def fetchConflicts (docs : List (String × String)) (rows : List WriteRow) :
    List WriteRow :=
  rows.filter (fun row =>
    match docs.lookup row.key with
    | none => false
    | some stored =>
        match row.assumedMasterState with
        | none => true
        | some assumed => decide (stored ≠ assumed))

/-- Modelled from the spec: handleUpstreamBatch (upstream.ts, not among the
provided sources) per section 4.4: detect conflicts, stage the
non-conflicting rows into the WAL, and return the conflict list. The result
is the returned conflict list together with the staged rows. -/
def handleUpstreamBatch (docs : List (String × String)) (rows : List WriteRow) :
    List WriteRow × List WriteRow :=
  let conflicts := fetchConflicts docs rows
  let staged := rows.filter (fun row =>
    !(match docs.lookup row.key with
      | none => false
      | some stored =>
          match row.assumedMasterState with
          | none => true
          | some assumed => decide (stored ≠ assumed)))
  (conflicts, staged)

/-- Whether replicateGoogleDrive wraps start with the signaling lifecycle
(index.ts line 195): options.live, defaulted to true when absent (line
115), and a configured pull option. -/
def installsSignaling (live : Option Bool) (pullConfigured : Bool) : Bool :=
  live.getD true && pullConfigured

/-- Observable lifecycle state of one replication: whether the signaling
state was created and closed, whether the resync subscription that triggers
a re-pull is active, and whether the original start and cancel of the
replication state have been invoked. -/
structure OrchestratorState where
  signalingCreated : Bool
  signalingClosed : Bool
  resyncSubscribed : Bool
  cancelOverridden : Bool
  baseStartCalled : Bool
  baseCancelCalled : Bool
  deriving DecidableEq, Repr

/-- Initial lifecycle state right after replicateGoogleDrive returns. -/
def orchestratorInit : OrchestratorState :=
  { signalingCreated := false
    signalingClosed := false
    resyncSubscribed := false
    cancelOverridden := false
    baseStartCalled := false
    baseCancelCalled := false }

/-- Effect of calling start (index.ts lines 199-216): when the signaling
wrapper is installed, start creates the SignalingState, subscribes resync
to trigger reSync, overrides cancel, and delegates to the original start;
otherwise only the original start runs. -/
def orchestratorStart (installed : Bool) (s : OrchestratorState) : OrchestratorState :=
  if installed then
    { s with
      signalingCreated := true
      resyncSubscribed := true
      cancelOverridden := true
      baseStartCalled := true }
  else
    { s with baseStartCalled := true }

/-- Effect of calling cancel (index.ts lines 210-214): the overridden
cancel unsubscribes the resync subscription, closes the SignalingState and
delegates to the original cancel; without the override only the original
cancel runs. -/
def orchestratorCancel (s : OrchestratorState) : OrchestratorState :=
  if s.cancelOverridden then
    { s with
      resyncSubscribed := false
      signalingClosed := true
      baseCancelCalled := true }
  else
    { s with baseCancelCalled := true }

/-- Invariant of the fetchDocumentContents execution: the worker list keeps
its size, the shared counter never passes the end, every claimed slot is
either already written with the content of its file id or still owned by a
downloading worker, and a worker can only have finished after the counter
reached the end. -/
def FetchInv (fileIds : List String) (content : String → String)
    (concurrency : Nat) (s : FetchContentsRun) : Prop :=
  s.workers.length = concurrency ∧
  s.nextIndex ≤ fileIds.length ∧
  (∀ j, j < s.nextIndex →
    s.ordered j = some (content (fileIds.getD j ""))
      ∨ ∃ w, s.workers.get? w = some (WorkerPhase.fetching j)) ∧
  (WorkerPhase.done ∈ s.workers → s.nextIndex = fileIds.length)

end GoogleDriveReplication

namespace GoogleDriveReplication

/-- Shared helper: fetchChangesFiles with a checkpoint agrees with the
specification-level description fetchChangesFilesSpec. -/
theorem fetchChangesFiles_eq_spec
    (c : GoogleDriveCheckpointType)
    (listed : List DriveFileMetadata)
    (batchSize : Nat) :
    fetchChangesFiles (some c) listed batchSize
      = fetchChangesFilesSpec c listed batchSize := by
  have hfilter :
      (fun (file : DriveFileMetadata) =>
        !(file.modifiedTime == c.modifiedTime
          && c.docIdsWithSameModifiedTime.contains file.name))
      = (fun (file : DriveFileMetadata) =>
        decide (¬ (file.modifiedTime = c.modifiedTime
          ∧ file.name ∈ c.docIdsWithSameModifiedTime))) := by
    funext file
    by_cases h1 : file.modifiedTime = c.modifiedTime <;>
      by_cases h2 : file.name ∈ c.docIdsWithSameModifiedTime <;>
        simp [h1, h2, List.elem_iff]
  unfold fetchChangesFiles fetchChangesFilesSpec
  simp only [hfilter]
  cases hlast :
      ((listed.filter (fun (file : DriveFileMetadata) =>
        decide (¬ (file.modifiedTime = c.modifiedTime
          ∧ file.name ∈ c.docIdsWithSameModifiedTime)))).take batchSize).getLast?
    with
  | none => simp [hlast]
  | some lastFile =>
      have hinner :
          (fun (file : DriveFileMetadata) =>
            file.modifiedTime == lastFile.modifiedTime)
          = (fun (file : DriveFileMetadata) =>
            decide (file.modifiedTime = lastFile.modifiedTime)) := by
        funext file
        by_cases h : file.modifiedTime = lastFile.modifiedTime <;> simp [h]
      cases hhead :
          ((listed.filter (fun (file : DriveFileMetadata) =>
            decide (¬ (file.modifiedTime = c.modifiedTime
              ∧ file.name ∈ c.docIdsWithSameModifiedTime)))).take batchSize).head?
        with
      | none =>
          exfalso
          rcases List.getLast?_eq_some_iff.mp hlast with ⟨l, hl⟩
          rw [hl] at hhead
          cases l <;> simp at hhead
      | some f =>
          by_cases hft : f.modifiedTime = c.modifiedTime <;>
            simp [hlast, hhead, hinner, hft]

/-- C3: given a checkpoint, fetchChangesFiles computes exactly what the
specification describes: it drops precisely the already delivered files of
the checkpoint modifiedTime, truncates to batchSize, and builds the new
checkpoint from the last kept file with the tie-cluster name list,
concatenating the old list when the first kept file still has the old
checkpoint modifiedTime. -/
theorem fetchChangesFiles_matches_spec
    (c : GoogleDriveCheckpointType)
    (listed : List DriveFileMetadata)
    (batchSize : Nat) :
    fetchChangesFiles (some c) listed batchSize
      = fetchChangesFilesSpec c listed batchSize :=
  fetchChangesFiles_eq_spec c listed batchSize

/-- C2: fetchChangesFiles is monotonic in the checkpoint. Under the query
guarantee that every listed file has modifiedTime at least the checkpoint
modifiedTime (the listing query contains modifiedTime greater or equal to
the checkpoint), the returned checkpoint never moves backwards, and when no
undelivered file remains the checkpoint is returned unchanged. -/
theorem fetchChangesFiles_checkpoint_monotonic
    (c1 : GoogleDriveCheckpointType)
    (listed : List DriveFileMetadata)
    (batchSize : Nat)
    (hq : ∀ f ∈ listed, c1.modifiedTime ≤ f.modifiedTime) :
    (∀ c2, (fetchChangesFiles (some c1) listed batchSize).checkpoint = some c2 →
        c1.modifiedTime ≤ c2.modifiedTime) ∧
    ((fetchChangesFiles (some c1) listed batchSize).files = [] →
        (fetchChangesFiles (some c1) listed batchSize).checkpoint = some c1) := by
  rw [fetchChangesFiles_eq_spec]
  unfold fetchChangesFilesSpec
  generalize hk : (listed.filter (fun (file : DriveFileMetadata) =>
      decide (¬ (file.modifiedTime = c1.modifiedTime
        ∧ file.name ∈ c1.docIdsWithSameModifiedTime)))).take batchSize = kept
  have hsub : ∀ x ∈ kept, x ∈ listed := by
    intro x hx
    rw [← hk] at hx
    exact List.mem_of_mem_filter (List.mem_of_mem_take hx)
  cases hlast : kept.getLast? with
  | none =>
      refine ⟨?_, ?_⟩ <;> simp [hlast]
  | some lastFile =>
      have hmem : lastFile ∈ listed := hsub lastFile (List.mem_of_mem_getLast? hlast)
      have hle : c1.modifiedTime ≤ lastFile.modifiedTime := hq lastFile hmem
      refine ⟨?_, ?_⟩
      · intro c2 hc2
        simp [hlast] at hc2
        rw [← hc2]
        exact hle
      · intro hfiles
        simp [hlast] at hfiles
        rw [hfiles] at hlast
        simp at hlast

/-- Witness for fetchChangesFiles_checkpoint_monotonic at a concrete
checkpoint and listing. -/
theorem fetchChangesFiles_checkpoint_monotonic_witness :
    (∀ f ∈ ([⟨"id1", "a", 5⟩, ⟨"id2", "b", 7⟩] : List DriveFileMetadata),
        (⟨5, ["a"]⟩ : GoogleDriveCheckpointType).modifiedTime ≤ f.modifiedTime) ∧
    ((∀ c2, (fetchChangesFiles (some ⟨5, ["a"]⟩)
          [⟨"id1", "a", 5⟩, ⟨"id2", "b", 7⟩] 10).checkpoint = some c2 →
        (⟨5, ["a"]⟩ : GoogleDriveCheckpointType).modifiedTime ≤ c2.modifiedTime) ∧
      ((fetchChangesFiles (some ⟨5, ["a"]⟩)
          [⟨"id1", "a", 5⟩, ⟨"id2", "b", 7⟩] 10).files = [] →
        (fetchChangesFiles (some ⟨5, ["a"]⟩)
          [⟨"id1", "a", 5⟩, ⟨"id2", "b", 7⟩] 10).checkpoint = some ⟨5, ["a"]⟩)) :=
  ⟨by decide,
    fetchChangesFiles_checkpoint_monotonic ⟨5, ["a"]⟩
      [⟨"id1", "a", 5⟩, ⟨"id2", "b", 7⟩] 10 (by decide)⟩

/-- C4 counterexample: it is not the case that a poll returning a non-empty
batch resets the backoff step counter to 0 before the next delay is chosen.
At step id 3 a batch of 5 messages leaves the counter at 4. -/
theorem pollLoop_nonempty_batch_reset_counterexample :
    ¬ (∀ (s : PollState) (batchSize : Nat), 0 < batchSize →
        ((pollLoopIteration s batchSize).2).backoffStepId = 0) :=
  fun h => absurd (h ⟨3, 0⟩ 5 (by decide)) (by decide)

/-- C4 amended: the effect of a poll iteration on the backoff step counter
does not depend on the batch at all; every iteration increments the counter
and caps it at MAX_BACKOFF_STEP_ID (index 14, delay 120000 ms); only
resetReadLoop, which the online listener, the visibilitychange listener and
a NEW_PEER data message invoke, sets the counter to 0. -/
theorem pollLoop_backoff_behavior (s : PollState) (batchSize : Nat) :
    ((pollLoopIteration s batchSize).2).backoffStepId
        = min (s.backoffStepId + 1) MAX_BACKOFF_STEP_ID ∧
    ((pollLoopIteration s batchSize).2).backoffStepId
        = ((pollLoopIteration s 0).2).backoffStepId ∧
    (pollLoopIteration s batchSize).1 = BACKOFF_STEPS.getD s.backoffStepId 0 ∧
    (resetReadLoopStep s batchSize).backoffStepId = 0 ∧
    MAX_BACKOFF_STEP_ID = 14 ∧
    BACKOFF_STEPS.getD MAX_BACKOFF_STEP_ID 0 = 120000 := by
  have hstep : ∀ b, (processNewMessagesStep s b).backoffStepId = s.backoffStepId := by
    intro b
    unfold processNewMessagesStep
    split <;> rfl
  refine ⟨?_, ?_, rfl, rfl, rfl, rfl⟩ <;>
    simp [pollLoopIteration, hstep, MAX_BACKOFF_STEP_ID, BACKOFF_STEPS] <;>
      first
        | omega
        | (split <;> omega)

/-- C5: cleanupOldSignalingMessages is dead code. On a folder holding three
signaling files older than the default 24h cutoff and one younger file, the
function returns 2 and deletes nothing, while its unreachable body (what
the specification describes) would delete the three old files and return 3. -/
theorem cleanupOldSignalingMessages_returns_early :
    cleanupOldSignalingMessages
        [⟨"s1", 100⟩, ⟨"s2", 200⟩, ⟨"s3", 300⟩, ⟨"young", 199999999⟩] 200000000
      = (2, [⟨"s1", 100⟩, ⟨"s2", 200⟩, ⟨"s3", 300⟩, ⟨"young", 199999999⟩]) ∧
    cleanupOldSignalingMessagesBody
        [⟨"s1", 100⟩, ⟨"s2", 200⟩, ⟨"s3", 300⟩, ⟨"young", 199999999⟩] 200000000
      = (3, [⟨"young", 199999999⟩]) := by
  exact ⟨rfl, by decide⟩

/-- C6: starting from no registered listeners, the constructor registers
online on window and visibilitychange on document, but close removes both
event names from window only, so the visibilitychange listener registered
on document survives close. -/
theorem signalingClose_leaves_document_listener :
    signalingCloseListeners (signalingConstructorListeners ⟨[], []⟩)
      = ⟨[], ["visibilitychange"]⟩ := by
  decide

/-- C1 counterexample: a row without assumedMasterState is reported as a
conflict when a document file with its primary key already exists: with a
stored file doc-0 at state v1, the pure insert row for doc-0 is returned in
the conflict list. This matches the repository test for the full push
batch, which pushes three such rows onto existing files and asserts three
conflicts. -/
theorem handleUpstreamBatch_insert_conflict_counterexample :
    (handleUpstreamBatch [("doc-0", "v1")] [⟨"doc-0", "v2", none⟩]).1
      = [⟨"doc-0", "v2", none⟩] := by
  decide

/-- C1 amended: a row that carries no assumedMasterState is included in the
returned conflict list exactly when a document file with its primary key
already exists under docs; when no such file exists the row is never a
conflict. -/
theorem handleUpstreamBatch_no_assumed_conflict_iff
    (docs : List (String × String)) (rows : List WriteRow) (row : WriteRow)
    (hnone : row.assumedMasterState = none) :
    row ∈ (handleUpstreamBatch docs rows).1
      ↔ (row ∈ rows ∧ (docs.lookup row.key).isSome = true) := by
  unfold handleUpstreamBatch fetchConflicts
  simp only [List.mem_filter]
  cases hl : docs.lookup row.key <;> simp [hl, hnone]

/-- Witness for handleUpstreamBatch_no_assumed_conflict_iff at the concrete
push of a pure insert row onto an existing document file. -/
theorem handleUpstreamBatch_no_assumed_conflict_iff_witness :
    (⟨"doc-0", "v2", none⟩ : WriteRow).assumedMasterState = none ∧
    ((⟨"doc-0", "v2", none⟩ : WriteRow)
        ∈ (handleUpstreamBatch [("doc-0", "v1")] [⟨"doc-0", "v2", none⟩]).1
      ↔ ((⟨"doc-0", "v2", none⟩ : WriteRow) ∈ [(⟨"doc-0", "v2", none⟩ : WriteRow)]
          ∧ (([("doc-0", "v1")].lookup
              (⟨"doc-0", "v2", none⟩ : WriteRow).key).isSome = true))) :=
  ⟨rfl,
    handleUpstreamBatch_no_assumed_conflict_iff
      [("doc-0", "v1")] [⟨"doc-0", "v2", none⟩] ⟨"doc-0", "v2", none⟩ rfl⟩

/-- C8: the orchestrator installs the signaling lifecycle if and only if
live mode (defaulted to true) is enabled and a pull option is configured;
in that case start creates the SignalingState and subscribes its resync
stream, and cancel unsubscribes, closes the SignalingState and delegates to
the original cancel; otherwise no SignalingState is ever created. -/
theorem replicateGoogleDrive_signaling_lifecycle
    (live : Option Bool) (pullConfigured : Bool) :
    (installsSignaling live pullConfigured = true
      ↔ (live.getD true = true ∧ pullConfigured = true)) ∧
    (installsSignaling live pullConfigured = true →
      (orchestratorStart (installsSignaling live pullConfigured)
          orchestratorInit).signalingCreated = true ∧
      (orchestratorStart (installsSignaling live pullConfigured)
          orchestratorInit).resyncSubscribed = true ∧
      (orchestratorCancel (orchestratorStart (installsSignaling live pullConfigured)
          orchestratorInit)).resyncSubscribed = false ∧
      (orchestratorCancel (orchestratorStart (installsSignaling live pullConfigured)
          orchestratorInit)).signalingClosed = true ∧
      (orchestratorCancel (orchestratorStart (installsSignaling live pullConfigured)
          orchestratorInit)).baseCancelCalled = true) ∧
    (installsSignaling live pullConfigured = false →
      (orchestratorStart (installsSignaling live pullConfigured)
          orchestratorInit).signalingCreated = false ∧
      (orchestratorCancel (orchestratorStart (installsSignaling live pullConfigured)
          orchestratorInit)).signalingClosed = false ∧
      (orchestratorCancel (orchestratorStart (installsSignaling live pullConfigured)
          orchestratorInit)).baseCancelCalled = true) := by
  cases live with
  | none => cases pullConfigured <;> decide
  | some b => cases b <;> cases pullConfigured <;> decide

/-- Witness for replicateGoogleDrive_signaling_lifecycle in live mode with
a configured pull option. -/
theorem replicateGoogleDrive_signaling_lifecycle_witness :
    installsSignaling (some true) true = true ∧
    (orchestratorCancel (orchestratorStart (installsSignaling (some true) true)
        orchestratorInit)).signalingClosed = true ∧
    (orchestratorCancel (orchestratorStart (installsSignaling (some true) true)
        orchestratorInit)).resyncSubscribed = false :=
  ⟨by decide,
    ((replicateGoogleDrive_signaling_lifecycle (some true) true).2.1
      (by decide)).2.2.2.1,
    ((replicateGoogleDrive_signaling_lifecycle (some true) true).2.1
      (by decide)).2.2.1⟩

/-- Shared helper: for any starting attempt, fetchOneRun sleeps at most
4 minus attempt backoff delays, the i-th slept delay is 250 times 2 to the
power of the attempt number plus the jitter of that attempt, and an error
with a retryable status is propagated only once the attempt counter has
reached 4. -/
theorem fetchOneRun_policy (jitter : Nat → Nat) (statuses : List Nat) :
    ∀ a : Nat,
    ((fetchOneRun jitter statuses a).2).length ≤ 4 - a ∧
    (∀ i, i < ((fetchOneRun jitter statuses a).2).length →
        ((fetchOneRun jitter statuses a).2).get? i
          = some (250 * 2 ^ (a + i) + jitter (a + i))) ∧
    (∀ s, (fetchOneRun jitter statuses a).1 = Except.error s →
        s ∈ RETRY_STATUSES → 4 ≤ a + ((fetchOneRun jitter statuses a).2).length) := by
  induction statuses with
  | nil =>
      intro a
      refine ⟨by simp [fetchOneRun], by simp [fetchOneRun], ?_⟩
      intro s hs hmem
      simp [fetchOneRun] at hs
      rw [← hs] at hmem
      simp [RETRY_STATUSES] at hmem
  | cons status rest ih =>
      intro a
      by_cases hr : status ∈ RETRY_STATUSES ∧ a < 4
      · have h := ih (a + 1)
        simp only [fetchOneRun, if_pos hr]
        refine ⟨?_, ?_, ?_⟩
        · simp only [List.length_cons]
          have := h.1
          omega
        · intro i hi
          cases i with
          | zero => rfl
          | succ i =>
              simp only [List.length_cons] at hi
              have hg := h.2.1 i (by omega)
              have hidx : a + 1 + i = a + (i + 1) := by omega
              rw [hidx] at hg
              simpa using hg
        · intro s hs hmem
          have := h.2.2 s hs hmem
          simp only [List.length_cons]
          omega
      · simp only [fetchOneRun, if_neg hr]
        by_cases hok : resOk status
        · simp [hok]
        · refine ⟨by simp [hok], by simp [hok], ?_⟩
          intro s hs hmem
          simp [hok] at hs
          rw [← hs] at hmem
          have : ¬ a < 4 := fun hlt => hr ⟨hmem, hlt⟩
          simp [hok]
          omega

/-- C7 counterexample: the folder listing used by fetchChanges does not
follow the retry policy. On the response sequence 429 then 200, the
per-file download retries once (sleeping 250 ms plus jitter 0) and
succeeds, while the listing of fetchChangesFiles immediately propagates the
429 as an error instead of retrying. -/
theorem fetchChangesFiles_listing_no_retry_counterexample :
    fetchOneRun (fun _ => 0) [429, 200] 0 = (Except.ok (), [250]) ∧
    fetchChangesFilesResponse [429, 200] = Except.error 429 :=
  ⟨rfl, rfl⟩

/-- C7 amended: the per-file content download retries statuses 429, 500,
502, 503 and 504 with delay 250 times 2 to the attempt plus the jitter, at
most 4 times, and propagates a retryable error status only after the 4
retries are exhausted; the folder listing of fetchChangesFiles performs no
retry and immediately throws on any non-2xx status. -/
theorem fetchOne_retry_policy
    (statuses : List Nat) (jitter : Nat → Nat) :
    ((fetchOneRun jitter statuses 0).2).length ≤ 4 ∧
    (∀ i, i < ((fetchOneRun jitter statuses 0).2).length →
        ((fetchOneRun jitter statuses 0).2).get? i
          = some (250 * 2 ^ i + jitter i)) ∧
    (∀ s, (fetchOneRun jitter statuses 0).1 = Except.error s →
        s ∈ RETRY_STATUSES → ((fetchOneRun jitter statuses 0).2).length = 4) ∧
    (∀ s rest, resOk s = false →
        fetchChangesFilesResponse (s :: rest) = Except.error s) := by
  have h := fetchOneRun_policy jitter statuses 0
  refine ⟨by simpa using h.1, ?_, ?_, ?_⟩
  · intro i hi
    simpa using h.2.1 i hi
  · intro s hs hmem
    have h1 := h.1
    have h3 := h.2.2 s hs hmem
    omega
  · intro s rest hok
    simp [fetchChangesFilesResponse, hok]

/-- Witness for fetchOne_retry_policy on a concrete sequence of five
retryable statuses with jitter 7: all 4 retries are used, the delay of
attempt 2 is 1000 plus 7, and the listing of fetchChangesFiles propagates
a 503 immediately. -/
theorem fetchOne_retry_policy_witness :
    ((fetchOneRun (fun _ => 7) [429, 500, 502, 503, 429] 0).2).get? 2
      = some (250 * 2 ^ 2 + 7) ∧
    ((fetchOneRun (fun _ => 7) [429, 500, 502, 503, 429] 0).2).length = 4 ∧
    fetchChangesFilesResponse (503 :: [200]) = Except.error 503 :=
  ⟨(fetchOne_retry_policy [429, 500, 502, 503, 429] (fun _ => 7)).2.1 2 (by decide),
    (fetchOne_retry_policy [429, 500, 502, 503, 429] (fun _ => 7)).2.2.1 429
      rfl (by decide),
    (fetchOne_retry_policy [] (fun _ => 0)).2.2.2 503 [200] (by decide)⟩

/-- Shared helper: awaiting all downloads of a batch succeeds exactly when
every single download of the batch succeeds. -/
theorem downloadAllMessages_isOk
    (download : String → Except Nat String) (l : List SignalMessageFile) :
    (downloadAllMessages download l).isOk = true
      ↔ ∀ f ∈ l, (download f.id).isOk = true := by
  induction l with
  | nil => simp [downloadAllMessages, Except.isOk, Except.toBool]
  | cons f rest ih =>
      cases hd : download f.id with
      | error e =>
          simp only [downloadAllMessages, hd]
          constructor
          · intro h
            simp [Except.isOk, Except.toBool] at h
          · intro h
            have := h f (by simp)
            rw [hd] at this
            simp [Except.isOk, Except.toBool] at this
      | ok c =>
          cases hrest : downloadAllMessages download rest with
          | error e =>
              simp only [downloadAllMessages, hd, hrest]
              constructor
              · intro h
                simp [Except.isOk, Except.toBool] at h
              · intro h
                have : (downloadAllMessages download rest).isOk = true :=
                  ih.mpr (fun g hg => h g (by simp [hg]))
                rw [hrest] at this
                simp [Except.isOk, Except.toBool] at this
          | ok cs =>
              simp only [downloadAllMessages, hd, hrest]
              constructor
              · intro _ g hg
                rcases List.mem_cons.mp hg with hgf | hgr
                · rw [hgf, hd]
                  rfl
                · have : (downloadAllMessages download rest).isOk = true := by
                    rw [hrest]
                    rfl
                  exact (ih.mp this) g hgr
              · intro _
                rfl

/-- C10: readMessages adds the message ids of the unseen batch to the
processed set only when every download of the batch succeeded; if any
download fails, the call propagates an error and the processed set is
returned unchanged, so a later retry still sees the whole batch as unseen. -/
theorem readMessages_marks_processed_only_after_success
    (listedNewestFirst : List SignalMessageFile)
    (processedMessageIds : List String)
    (download : String → Except Nat String) :
    (∀ f e, f ∈ unseenMessageFiles listedNewestFirst processedMessageIds →
        download f.id = Except.error e →
        ((readMessages listedNewestFirst processedMessageIds download).1).isOk = false ∧
        (readMessages listedNewestFirst processedMessageIds download).2
          = processedMessageIds) ∧
    ((∀ f, f ∈ unseenMessageFiles listedNewestFirst processedMessageIds →
        (download f.id).isOk = true) →
      ((readMessages listedNewestFirst processedMessageIds download).1).isOk = true ∧
      (readMessages listedNewestFirst processedMessageIds download).2
        = processedMessageIds
          ++ (unseenMessageFiles listedNewestFirst processedMessageIds).map
              (fun file => messageIdByFilename file.name)) := by
  constructor
  · intro f e hf hd
    have hbad :
        ¬ (downloadAllMessages download
            (unseenMessageFiles listedNewestFirst processedMessageIds)).isOk = true := by
      intro hok
      have := (downloadAllMessages_isOk download
        (unseenMessageFiles listedNewestFirst processedMessageIds)).mp hok f hf
      rw [hd] at this
      simp [Except.isOk, Except.toBool] at this
    cases hall : downloadAllMessages download
        (unseenMessageFiles listedNewestFirst processedMessageIds) with
    | error e2 =>
        constructor <;> simp [readMessages, hall, Except.isOk, Except.toBool]
    | ok msgs =>
        exfalso
        apply hbad
        rw [hall]
        rfl
  · intro hok
    have hall := (downloadAllMessages_isOk download
      (unseenMessageFiles listedNewestFirst processedMessageIds)).mpr hok
    cases h : downloadAllMessages download
        (unseenMessageFiles listedNewestFirst processedMessageIds) with
    | error e =>
        rw [h] at hall
        simp [Except.isOk, Except.toBool] at hall
    | ok msgs =>
        constructor <;> simp [readMessages, h, Except.isOk, Except.toBool]

/-- Witness for readMessages_marks_processed_only_after_success: a single
unseen message whose download fails leaves the processed set empty. -/
theorem readMessages_marks_processed_only_after_success_witness :
    (⟨"bad", "s1_1_m1.json"⟩ : SignalMessageFile)
        ∈ unseenMessageFiles [⟨"bad", "s1_1_m1.json"⟩] [] ∧
    ((readMessages [⟨"bad", "s1_1_m1.json"⟩] []
        (fun _ => Except.error 7)).1).isOk = false ∧
    (readMessages [⟨"bad", "s1_1_m1.json"⟩] [] (fun _ => Except.error 7)).2 = [] := by
  have hmem : (⟨"bad", "s1_1_m1.json"⟩ : SignalMessageFile)
      ∈ unseenMessageFiles [⟨"bad", "s1_1_m1.json"⟩] [] := by
    simp [unseenMessageFiles]
  have h := (readMessages_marks_processed_only_after_success
    [⟨"bad", "s1_1_m1.json"⟩] [] (fun _ => Except.error 7)).1
    ⟨"bad", "s1_1_m1.json"⟩ 7 hmem rfl
  exact ⟨hmem, h.1, h.2⟩

/-- Shared helper: an element of a list after a set was either already in
the list or is the written value. -/
theorem mem_of_mem_set {α : Type} (l : List α) (w : Nat) (v x : α)
    (h : x ∈ l.set w v) : x ∈ l ∨ x = v := by
  rcases List.mem_iff_get?.mp h with ⟨k, hk⟩
  by_cases hkw : k = w
  · subst hkw
    by_cases hlt : k < l.length
    · rw [List.get?_set_eq_of_lt _ hlt] at hk
      right
      exact (Option.some.inj hk).symm
    · rw [List.set_eq_of_length_le (by omega)] at hk
      exact Or.inl (List.mem_iff_get?.mpr ⟨k, hk⟩)
  · rw [List.get?_set_ne _ _ (fun he => hkw he.symm)] at hk
    exact Or.inl (List.mem_iff_get?.mpr ⟨k, hk⟩)

/-- Shared helper: the initial state of fetchDocumentContents satisfies the
execution invariant. -/
theorem fetchContentsInit_inv (fileIds : List String) (content : String → String)
    (concurrency : Nat) :
    FetchInv fileIds content concurrency (fetchContentsInit concurrency) := by
  refine ⟨List.length_replicate concurrency _, Nat.zero_le _, ?_, ?_⟩
  · intro j hj
    exact absurd hj (by simp [fetchContentsInit])
  · intro hd
    have := List.eq_of_mem_replicate hd
    exact absurd this (by decide)

/-- Shared helper: one scheduling step of fetchDocumentContents preserves
the execution invariant. -/
theorem fetchContentsStep_inv (fileIds : List String) (content : String → String)
    (concurrency : Nat) (s : FetchContentsRun) (w : Nat)
    (h : FetchInv fileIds content concurrency s) :
    FetchInv fileIds content concurrency (fetchContentsStep fileIds content s w) := by
  obtain ⟨hlen, hnext, hord, hdone⟩ := h
  unfold fetchContentsStep
  cases hw : s.workers.get? w with
  | none => exact ⟨hlen, hnext, hord, hdone⟩
  | some phase =>
      have hwlt : w < s.workers.length := by
        by_contra hge
        rw [(List.get?_eq_none).mpr (by omega)] at hw
        cases hw
      cases phase with
      | done => exact ⟨hlen, hnext, hord, hdone⟩
      | idle =>
          by_cases hge : s.nextIndex ≥ fileIds.length
          · simp only [if_pos hge]
            refine ⟨by simp [hlen], hnext, ?_, ?_⟩
            · intro j hj
              rcases hord j hj with hl | ⟨w2, hw2⟩
              · exact Or.inl hl
              · have hw2w : w2 ≠ w := by
                  intro he
                  subst he
                  rw [hw] at hw2
                  cases Option.some.inj hw2
                right
                refine ⟨w2, ?_⟩
                rw [List.get?_set_ne _ _ (fun he => hw2w he.symm)]
                exact hw2
            · intro _
              show s.nextIndex = fileIds.length
              omega
          · simp only [if_neg hge]
            refine ⟨by simp [hlen], by simp; omega, ?_, ?_⟩
            · intro j hj
              simp only [] at hj
              by_cases hj2 : j < s.nextIndex
              · rcases hord j hj2 with hl | ⟨w2, hw2⟩
                · exact Or.inl hl
                · have hw2w : w2 ≠ w := by
                    intro he
                    subst he
                    rw [hw] at hw2
                    cases Option.some.inj hw2
                  right
                  refine ⟨w2, ?_⟩
                  rw [List.get?_set_ne _ _ (fun he => hw2w he.symm)]
                  exact hw2
              · have hjeq : j = s.nextIndex := by omega
                subst hjeq
                right
                exact ⟨w, List.get?_set_eq_of_lt _ hwlt⟩
            · intro hd
              exfalso
              simp only [] at hd
              rcases mem_of_mem_set _ _ _ _ hd with hmem | heq
              · have := hdone hmem
                omega
              · cases heq
      | fetching i =>
          refine ⟨by simp [hlen], hnext, ?_, ?_⟩
          · intro j hj
            simp only [] at hj ⊢
            by_cases hji : j = i
            · subst hji
              left
              show (if j = j then some (content (fileIds.getD j ""))
                  else s.ordered j) = some (content (fileIds.getD j ""))
              rw [if_pos rfl]
            · rcases hord j hj with hl | ⟨w2, hw2⟩
              · left
                show (if j = i then some (content (fileIds.getD i ""))
                    else s.ordered j) = some (content (fileIds.getD j ""))
                rw [if_neg hji]
                exact hl
              · by_cases hw2w : w2 = w
                · subst hw2w
                  rw [hw] at hw2
                  have hij : WorkerPhase.fetching i = WorkerPhase.fetching j :=
                    Option.some.inj hw2
                  cases hij
                  exact absurd rfl hji
                · right
                  refine ⟨w2, ?_⟩
                  rw [List.get?_set_ne _ _ (fun he => hw2w he.symm)]
                  exact hw2
          · intro hd
            simp only [] at hd
            rcases mem_of_mem_set _ _ _ _ hd with hmem | heq
            · exact hdone hmem
            · cases heq

/-- Shared helper: the execution invariant holds after any schedule. -/
theorem fetchContentsRunAll_inv (fileIds : List String) (content : String → String)
    (concurrency : Nat) (schedule : List Nat) :
    FetchInv fileIds content concurrency
      (fetchContentsRunAll fileIds content concurrency schedule) := by
  unfold fetchContentsRunAll
  have hfold : ∀ (sched : List Nat) (s : FetchContentsRun),
      FetchInv fileIds content concurrency s →
      FetchInv fileIds content concurrency
        (sched.foldl (fetchContentsStep fileIds content) s) := by
    intro sched
    induction sched with
    | nil => exact fun s hs => hs
    | cons a rest ih =>
        intro s hs
        exact ih _ (fetchContentsStep_inv fileIds content concurrency s a hs)
  exact hfold schedule _ (fetchContentsInit_inv fileIds content concurrency)

/-- C9 counterexample: with concurrency 0 the Promise.all of zero workers
resolves immediately, so fetchDocumentContents returns although no ordered
slot was ever written: on one file id, the function is finished while slot
0 holds nothing, not the parsed content. -/
theorem fetchDocumentContents_concurrency_zero_counterexample :
    fetchContentsAllDone (fetchContentsRunAll ["a"] (fun _ => "c") 0 []) = true ∧
    (fetchContentsRunAll ["a"] (fun _ => "c") 0 []).ordered 0 = none :=
  ⟨rfl, rfl⟩

/-- C9 amended: for every list of file ids and every concurrency of at
least 1, whenever the execution of fetchDocumentContents finishes (all
workers done), slot j of the ordered array holds exactly the parsed
content of the file id at index j, under any interleaving of the workers;
consequently fetchChanges returns its documents in exactly the listing
order of the files. -/
theorem fetchDocumentContents_ordered_by_index
    (fileIds : List String) (content : String → String)
    (concurrency : Nat) (schedule : List Nat)
    (hc : 1 ≤ concurrency)
    (hdone : fetchContentsAllDone
        (fetchContentsRunAll fileIds content concurrency schedule) = true) :
    (∀ j, j < fileIds.length →
        (fetchContentsRunAll fileIds content concurrency schedule).ordered j
          = some (content (fileIds.getD j ""))) ∧
    (∀ files : List DriveFileMetadata,
        fileIds = files.map (fun f => f.id) →
        fetchChangesDocuments files content concurrency schedule
          = files.map (fun f => some (content f.id))) := by
  obtain ⟨hlen, hnext, hord, hdone2⟩ :=
    fetchContentsRunAll_inv fileIds content concurrency schedule
  have hall : ∀ p ∈ (fetchContentsRunAll fileIds content concurrency schedule).workers,
      p = WorkerPhase.done := by
    intro p hp
    have := List.all_eq_true.mp hdone p hp
    exact of_decide_eq_true this
  have hdmem : WorkerPhase.done
      ∈ (fetchContentsRunAll fileIds content concurrency schedule).workers := by
    have hne : (fetchContentsRunAll fileIds content concurrency schedule).workers ≠ [] := by
      intro he
      rw [he] at hlen
      simp at hlen
      omega
    obtain ⟨p, hp⟩ := List.exists_mem_of_ne_nil _ hne
    have hpd := hall p hp
    rw [hpd] at hp
    exact hp
  have hfull : (fetchContentsRunAll fileIds content concurrency schedule).nextIndex
      = fileIds.length := hdone2 hdmem
  have hmain : ∀ j, j < fileIds.length →
      (fetchContentsRunAll fileIds content concurrency schedule).ordered j
        = some (content (fileIds.getD j "")) := by
    intro j hj
    rcases hord j (by omega) with hl | ⟨w, hw⟩
    · exact hl
    · exfalso
      have hmem : WorkerPhase.fetching j
          ∈ (fetchContentsRunAll fileIds content concurrency schedule).workers :=
        List.mem_iff_get?.mpr ⟨w, hw⟩
      cases hall _ hmem
  refine ⟨hmain, ?_⟩
  intro files hfid
  subst hfid
  unfold fetchChangesDocuments
  apply List.ext_get?
  intro i
  by_cases hi : i < files.length
  · have hin : i < (files.map (fun f => f.id)).length := by
      rw [List.length_map]
      exact hi
    have hgd : (files.map (fun f => f.id)).getD i "" = (files.get ⟨i, hi⟩).id := by
      show ((files.map (fun f => f.id)).get? i).getD "" = (files.get ⟨i, hi⟩).id
      rw [List.get?_map, List.get?_eq_get hi]
      rfl
    have hL : ((List.range (files.map (fun f => f.id)).length).map
        (fetchContentsRunAll (files.map (fun f => f.id))
          content concurrency schedule).ordered).get? i
        = some ((fetchContentsRunAll (files.map (fun f => f.id))
          content concurrency schedule).ordered i) := by
      rw [List.get?_map, List.get?_range hin]
      rfl
    have hR : (files.map (fun f => some (content f.id))).get? i
        = some (some (content (files.get ⟨i, hi⟩).id)) := by
      rw [List.get?_map, List.get?_eq_get hi]
      rfl
    rw [hL, hR, hmain i hin, hgd]
  · have h1 : ((List.range (files.map (fun f => f.id)).length).map
        (fetchContentsRunAll (files.map (fun f => f.id))
          content concurrency schedule).ordered).get? i = none := by
      apply List.get?_eq_none.mpr
      simp only [List.length_map, List.length_range]
      omega
    have h2 : (files.map (fun f => some (content f.id))).get? i = none := by
      apply List.get?_eq_none.mpr
      simp only [List.length_map]
      omega
    rw [h1, h2]

/-- Witness for fetchDocumentContents_ordered_by_index: one worker drains
two files in five steps; afterwards both ordered slots hold the downloaded
contents in listing order. -/
theorem fetchDocumentContents_ordered_by_index_witness :
    (1 ≤ 1 ∧ fetchContentsAllDone
        (fetchContentsRunAll ["a", "b"] (fun s => s) 1 [0, 0, 0, 0, 0]) = true) ∧
    (fetchContentsRunAll ["a", "b"] (fun s => s) 1 [0, 0, 0, 0, 0]).ordered 0
      = some "a" ∧
    (fetchContentsRunAll ["a", "b"] (fun s => s) 1 [0, 0, 0, 0, 0]).ordered 1
      = some "b" :=
  ⟨⟨by decide, by decide⟩,
    (fetchDocumentContents_ordered_by_index ["a", "b"] (fun s => s) 1
      [0, 0, 0, 0, 0] (by decide) (by decide)).1 0 (by decide),
    (fetchDocumentContents_ordered_by_index ["a", "b"] (fun s => s) 1
      [0, 0, 0, 0, 0] (by decide) (by decide)).1 1 (by decide)⟩

end GoogleDriveReplication
